import Mathlib

/-!
Shallow embedding of `src/references/rust-experimental/ref-rust/src/main.rs`
(a minimal host-metrics sampler).  File reads are modelled by an `Env` of
`Option String` sources (`none` = read failure); the four reader functions,
the record assembly and the output formatting are translated directly from
the Rust source.
-/

namespace Sampler

/-- Numeric value of a list of ASCII digit characters (most significant first). -/
def digitsToNat (l : List Char) : Nat :=
  l.foldl (fun a c => a * 10 + (c.toNat - 48)) 0

/-- Split a character list at every character satisfying `p`, keeping empty
pieces (the list-level semantics of `String.split`). -/
def splitChars (p : Char → Bool) : List Char → List (List Char)
  | [] => [[]]
  | c :: cs =>
    if p c then [] :: splitChars p cs
    else
      match splitChars p cs with
      | [] => [[c]]
      | t :: ts => (c :: t) :: ts

/-- Rust `str::split_whitespace`: split on whitespace, dropping empty tokens. -/
def splitWhitespace (s : String) : List String :=
  ((splitChars Char.isWhitespace s.data).map List.asString).filter (fun t => t ≠ "")

/-- Rust `str::lines`: split on `'\n'`, a terminating final newline produces
no empty last line, and one trailing `'\r'` is stripped from each line. -/
def rustLines (s : String) : List String :=
  let parts := splitChars (fun c => c == '\n') s.data
  let parts := if parts.getLast? = some [] then parts.dropLast else parts
  (parts.map (fun l => if l.getLast? = some '\r' then l.dropLast else l)).map List.asString

/-- Rust `str::starts_with` for a string pattern. -/
def rustStartsWith (s pre : String) : Bool := pre.data.isPrefixOf s.data

/-- Rust `str::trim`: remove leading and trailing whitespace characters. -/
def rustTrim (s : String) : String :=
  ⟨((s.data.dropWhile Char.isWhitespace).reverse.dropWhile Char.isWhitespace).reverse⟩

/-- Rust `u64::from_str` (used by `parse::<u64>()` in `read_meminfo`):
an optional `'+'` sign followed by one or more ASCII digits, with the value
required to fit in 64 bits (overflow is a parse error). -/
def parseU64 (s : String) : Option Nat :=
  let cs := match s.data with
    | '+' :: rest => rest
    | cs => cs
  if cs ≠ [] ∧ cs.all Char.isDigit then
    let v := digitsToNat cs
    if v < 2 ^ 64 then some v else none
  else none

/-- Result of Rust `f64::from_str`.  A finite result is modelled exactly by its
decimal components: a sign, a mantissa `m` (all digits of the literal run
together) and a decimal exponent `e`, denoting the value `±m·10^e` (the
rounding of that value to the nearest binary `f64` is not modelled; for the
truncating cast below this only matters for literals within one unit in the
last place of an integer). -/
inductive RustFloat where
  | nan : RustFloat
  | inf : Bool → RustFloat
  | finite : Bool → Nat → Int → RustFloat
deriving DecidableEq

/-- The exact rational value `m·10^e` denoted by a finite decimal. -/
def decValue (m : Nat) (e : Int) : ℚ := (m : ℚ) * 10 ^ e

/-- `m·10^e` truncated toward zero to a natural number, computed without
rationals: multiply out a nonnegative exponent, or divide (natural-number
division, which truncates) by `10^(-e)` for a negative one. -/
def truncDec (m : Nat) (e : Int) : Nat :=
  if 0 ≤ e then m * 10 ^ e.toNat else m / 10 ^ (-e).toNat

/-- Sign handling of `f64::from_str`: an optional leading `'+'` or `'-'`. -/
def stripSign : List Char → Bool × List Char
  | '+' :: cs => (false, cs)
  | '-' :: cs => (true, cs)
  | cs => (false, cs)

/-- Exponent part of the `f64::from_str` grammar: `('e'|'E') Sign? Digit+`,
here given the characters after the `e`/`E`. -/
def parseExpPart (cs : List Char) : Option Int :=
  let (neg, ds) := stripSign cs
  if ds ≠ [] ∧ ds.all Char.isDigit then
    let n : Int := digitsToNat ds
    some (if neg then -n else n)
  else none

/-- `Number` part of the `f64::from_str` grammar (after the sign):
`Digit+ | Digit+ '.' Digit* | '.' Digit+`, with an optional exponent; the
result is the pair (mantissa, decimal exponent). -/
def parseNumber (cs : List Char) : Option (Nat × Int) :=
  let intPart := cs.takeWhile Char.isDigit
  let rest := cs.dropWhile Char.isDigit
  match rest with
  | '.' :: rest2 =>
    let fracPart := rest2.takeWhile Char.isDigit
    let rest3 := rest2.dropWhile Char.isDigit
    if intPart = [] ∧ fracPart = [] then none
    else
      let m := digitsToNat (intPart ++ fracPart)
      let e : Int := -(fracPart.length : Int)
      match rest3 with
      | [] => some (m, e)
      | 'e' :: rest4 => (parseExpPart rest4).map (fun ex => (m, e + ex))
      | 'E' :: rest4 => (parseExpPart rest4).map (fun ex => (m, e + ex))
      | _ => none
  | 'e' :: rest4 =>
    if intPart = [] then none
    else (parseExpPart rest4).map (fun ex => (digitsToNat intPart, ex))
  | 'E' :: rest4 =>
    if intPart = [] then none
    else (parseExpPart rest4).map (fun ex => (digitsToNat intPart, ex))
  | [] => if intPart = [] then none else some (digitsToNat intPart, 0)
  | _ => none

/-- Rust `f64::from_str`: `Sign? ('inf' | 'infinity' | 'nan' | Number)`,
the special words case-insensitive. -/
def parseF64 (s : String) : Option RustFloat :=
  let (neg, cs) := stripSign s.data
  let low := cs.map Char.toLower
  if low = "inf".data ∨ low = "infinity".data then some (.inf neg)
  else if low = "nan".data then some .nan
  else (parseNumber cs).map (fun p => .finite neg p.1 p.2)

/-- Rust `as` cast from `f64` to `u64`: NaN casts to `0`, the value is
truncated toward zero, negative values saturate to `0`, and values at or
above `2^64` saturate to `2^64 - 1`. -/
def castF64ToU64 : RustFloat → Nat
  | .nan => 0
  | .inf neg => if neg then 0 else 2 ^ 64 - 1
  | .finite neg m e =>
    if neg ∧ m ≠ 0 then 0
    else min (truncDec m e) (2 ^ 64 - 1)

/-- The sampler's four backing pseudo-files.  Each is `none` when the
corresponding `fs::read_to_string` call would fail and `some content`
otherwise. -/
structure Env where
  uptime : Option String
  meminfo : Option String
  loadavg : Option String
  hostname : Option String
deriving DecidableEq

/-- Body of `read_uptime` applied to the content delivered by
`fs::read_to_string("/proc/uptime").unwrap_or_default()`: first whitespace
token, parsed as `f64`, cast to `u64`, with `0` on any failure. -/
def uptimeOfContent (content : String) : Nat :=
  match splitWhitespace content with
  | [] => 0
  | tok :: _ =>
    match parseF64 tok with
    | some f => castF64ToU64 f
    | none => 0

/-- `read_uptime` from `main.rs`: a failed read is replaced by `""`
(`unwrap_or_default`). -/
def read_uptime (e : Env) : Nat := uptimeOfContent (e.uptime.getD "")

/-- Body of `read_meminfo` applied to the content of `/proc/meminfo`: the
first line starting with `key`, its second whitespace token parsed as `u64`,
with `0` on any failure. -/
def meminfoOfContent (key : String) (content : String) : Nat :=
  match (rustLines content).find? (fun line => rustStartsWith line key) with
  | none => 0
  | some line =>
    match (splitWhitespace line)[1]? with
    | none => 0
    | some tok => (parseU64 tok).getD 0

/-- `read_meminfo` from `main.rs`: a failed read is replaced by `""`. -/
def read_meminfo (e : Env) (key : String) : Nat := meminfoOfContent key (e.meminfo.getD "")

/-- Body of `read_loadavg`: the first whitespace token kept verbatim as a
string, `"0.00"` when there is none. -/
def loadavgOfContent (content : String) : String :=
  match splitWhitespace content with
  | [] => "0.00"
  | tok :: _ => tok

/-- `read_loadavg` from `main.rs`: a failed read is replaced by `""`. -/
def read_loadavg (e : Env) : String := loadavgOfContent (e.loadavg.getD "")

/-- `read_hostname` from `main.rs`: a failed read is replaced by the literal
`"unknown"` (`unwrap_or_else`), and the delivered string is then trimmed. -/
def read_hostname (e : Env) : String := rustTrim (e.hostname.getD "unknown")

/-- The five values interpolated into one output line. -/
structure MetricsRecord where
  hostname : String
  uptime : Nat
  mem_total_kb : Nat
  mem_free_kb : Nat
  load_1m : String
deriving DecidableEq

/-- One iteration of the loop body of `main` up to the `println!`: the four
reads, with the already-resolved hostname passed in. -/
def sampleRecord (e : Env) (hostname : String) : MetricsRecord :=
  { hostname := hostname
    uptime := read_uptime e
    mem_total_kb := read_meminfo e "MemTotal:"
    mem_free_kb := read_meminfo e "MemFree:"
    load_1m := read_loadavg e }

/-- The `println!` format string of `main`, applied to a record: five fields
in fixed order, strings interpolated verbatim between literal quotes,
integers printed in decimal. -/
def format_record (r : MetricsRecord) : String :=
  "\x7b\"hostname\":\"" ++ r.hostname ++ "\",\"uptime\":" ++ toString r.uptime ++
    ",\"mem_total_kb\":" ++ toString r.mem_total_kb ++
    ",\"mem_free_kb\":" ++ toString r.mem_free_kb ++
    ",\"load_1m\":\"" ++ r.load_1m ++ "\"\x7d"

/-- A whole single-cycle run of the process against one environment:
hostname resolution at startup followed by one loop iteration. -/
def oneCycle (e : Env) : MetricsRecord := sampleRecord e (read_hostname e)

/-- The line emitted by a single-cycle run. -/
def oneCycleLine (e : Env) : String := format_record (oneCycle e)

/-- The record emitted on the `n`-th loop iteration of a full process run:
the hostname is read once from the startup environment `start`, while the
other sources are read fresh from `trace n`, the environment current at
cycle `n`. -/
def processRecord (start : Env) (trace : Nat → Env) (n : Nat) : MetricsRecord :=
  sampleRecord (trace n) (read_hostname start)

/-- The memory-info lookup as the specification words it: scan the lines in
order, take the first whose text starts with the key, parse that line's
second whitespace token as an unsigned integer, and yield `0` on any
failure.  Written by direct recursion over the line list, for comparison
with the `List.find?`-based translation of the source. -/
def meminfoSpec (key : String) : List String → Nat
  | [] => 0
  | line :: rest =>
    if rustStartsWith line key then
      match (splitWhitespace line)[1]? with
      | none => 0
      | some tok => (parseU64 tok).getD 0
    else meminfoSpec key rest

/-- A three-line memory-info content whose `MemTotal:` line carries the
value `16384000`. -/
def memSample : String := "SwapTotal: 1 kB\nMemTotal:       16384000 kB\nMemFree: 2 kB"

/-- An environment whose meminfo source is `memSample` and whose other
sources are unreadable. -/
def memSampleEnv : Env :=
  { uptime := none, meminfo := some memSample, loadavg := none, hostname := none }

/-- A string with no double-quote character: its interpolation between
quotes stays inside them. -/
def quoteFree (s : String) : Prop := ('"' : Char) ∉ s.data

/-- A nonempty string of ASCII digits: the text of an unquoted unsigned
integer field. -/
def digitString (s : String) : Prop := s.data ≠ [] ∧ ∀ ch ∈ s.data, ch.isDigit = true

/-- A line of the documented five-field shape: the two string fields are
quoted and contain no quote character, the three integer fields are unquoted
digit runs, the fields appear in the fixed order, and nothing follows the
closing brace. -/
def wellFormedLine (line : String) : Prop :=
  ∃ h u t f l : String,
    quoteFree h ∧ quoteFree l ∧ digitString u ∧ digitString t ∧ digitString f ∧
    line = "\x7b\"hostname\":\"" ++ h ++ "\",\"uptime\":" ++ u ++ ",\"mem_total_kb\":" ++ t ++
      ",\"mem_free_kb\":" ++ f ++ ",\"load_1m\":\"" ++ l ++ "\"\x7d"

/-- An environment whose hostname content contains a double-quote character
and whose other sources are well-behaved. -/
def quoteEnv : Env :=
  { uptime := some "100.0 0", meminfo := some "MemTotal: 8000000 kB",
    loadavg := some "1.00 0.50 0.20 1/123 456", hostname := some "node\"1" }

/-- An environment whose hostname content carries surrounding whitespace. -/
def trimEnv : Env :=
  { uptime := none, meminfo := none, loadavg := none, hostname := some "  myhost \n" }

end Sampler

namespace Sampler

/-- `List.find?` evaluated one cons cell at a time. -/
theorem find?_cons_eval (p : String → Bool) (a : String) (l : List String) :
    (a :: l).find? p = if p a then some a else l.find? p := by
  by_cases h : p a
  · rw [if_pos h]; exact List.find?_cons_of_pos l h
  · rw [if_neg h]; exact List.find?_cons_of_neg l (by simpa using h)

/-- The memory-info lookup on empty content yields `0` for every key. -/
theorem meminfoOfContent_empty (key : String) : meminfoOfContent key "" = 0 := by
  have h : rustLines "" = [] := by decide
  simp [meminfoOfContent, h]

/-- C1: given sources delivering uptime `"100.0 0"`, a meminfo whose
`MemTotal:` lookup yields `8000000` and `MemFree:` lookup yields `4000000`,
a loadavg whose first token is `"1.00"`, and hostname content `"node1"`, one
sampling cycle emits exactly the documented five-field line, with nothing
after the closing brace. -/
theorem c1_end_to_end_record (e : Env)
    (hu : e.uptime = some "100.0 0")
    (hmt : read_meminfo e "MemTotal:" = 8000000)
    (hmf : read_meminfo e "MemFree:" = 4000000)
    (hl : read_loadavg e = "1.00")
    (hh : e.hostname = some "node1") :
    oneCycleLine e =
      "\x7b\"hostname\":\"node1\",\"uptime\":100,\"mem_total_kb\":8000000,\"mem_free_kb\":4000000,\"load_1m\":\"1.00\"\x7d" := by
  have h1 : read_uptime e = 100 := by rw [read_uptime, hu]; decide
  have h2 : read_hostname e = "node1" := by rw [read_hostname, hh]; decide
  simp only [oneCycleLine, oneCycle, sampleRecord, format_record, h1, h2, hmt, hmf, hl]
  decide

/-- Witness for C1 at a fully concrete environment. -/
theorem c1_end_to_end_record_witness :
    oneCycleLine
      { uptime := some "100.0 0"
        meminfo := some "MemTotal:       8000000 kB\nMemFree:        4000000 kB\n"
        loadavg := some "1.00 0.50 0.20 1/123 456"
        hostname := some "node1" } =
      "\x7b\"hostname\":\"node1\",\"uptime\":100,\"mem_total_kb\":8000000,\"mem_free_kb\":4000000,\"load_1m\":\"1.00\"\x7d" :=
  c1_end_to_end_record _ rfl (by decide) (by decide) (by decide) rfl

/-- C2 counterexample: the claim fails for `read_hostname` on a present but
empty source — the function returns the trimmed content `""`, not the
documented default `"unknown"`. -/
theorem c2_empty_hostname_counterexample :
    ¬ read_hostname { uptime := none, meminfo := none, loadavg := none,
                      hostname := some "" } = "unknown" := by
  decide

/-- C2 (amended): `read_uptime`, `read_meminfo` and `read_loadavg` return
their documented defaults (`0`, `0`, `"0.00"`) when their source is absent
or empty; `read_hostname` returns `"unknown"` only when its source is absent,
and returns the empty string (the trimmed content) when the source is present
but empty.  None of the four can fail. -/
theorem c2_reader_defaults (e : Env) :
    (e.uptime = none ∨ e.uptime = some "" → read_uptime e = 0) ∧
    (∀ key, e.meminfo = none ∨ e.meminfo = some "" → read_meminfo e key = 0) ∧
    (e.loadavg = none ∨ e.loadavg = some "" → read_loadavg e = "0.00") ∧
    (e.hostname = none → read_hostname e = "unknown") ∧
    (e.hostname = some "" → read_hostname e = "") := by
  refine ⟨?_, ?_, ?_, ?_, ?_⟩
  · rintro (h | h) <;> rw [read_uptime, h] <;> decide
  · intro key h
    rcases h with h | h <;> rw [read_meminfo, h] <;> exact meminfoOfContent_empty key
  · rintro (h | h) <;> rw [read_loadavg, h] <;> decide
  · intro h; rw [read_hostname, h]; decide
  · intro h; rw [read_hostname, h]; decide

/-- Witness for the amended C2 at concrete environments. -/
theorem c2_reader_defaults_witness :
    read_uptime { uptime := none, meminfo := none, loadavg := none, hostname := none } = 0 ∧
    read_meminfo { uptime := none, meminfo := some "", loadavg := none, hostname := none }
      "MemTotal:" = 0 ∧
    read_loadavg { uptime := none, meminfo := none, loadavg := some "", hostname := none }
      = "0.00" ∧
    read_hostname { uptime := none, meminfo := none, loadavg := none, hostname := none }
      = "unknown" ∧
    read_hostname { uptime := none, meminfo := none, loadavg := none, hostname := some "" }
      = "" :=
  ⟨(c2_reader_defaults _).1 (Or.inl rfl),
   (c2_reader_defaults _).2.1 "MemTotal:" (Or.inr rfl),
   (c2_reader_defaults _).2.2.1 (Or.inr rfl),
   (c2_reader_defaults _).2.2.2.1 rfl,
   (c2_reader_defaults _).2.2.2.2 rfl⟩

/-- `truncDec` is truncation of the exact decimal value: it computes the
natural-number floor of `m·10^e`. -/
theorem truncDec_eq_floor (m : Nat) (e : Int) : truncDec m e = ⌊decValue m e⌋₊ := by
  rcases le_or_lt 0 e with he | he
  · lift e to ℕ using he with k
    rw [truncDec, decValue]
    simp only [Int.toNat_natCast, if_pos (by omega : (0 : Int) ≤ k)]
    rw [zpow_natCast]
    have : (m : ℚ) * 10 ^ k = ((m * 10 ^ k : ℕ) : ℚ) := by push_cast; ring
    rw [this, Nat.floor_natCast]
  · obtain ⟨k, hk⟩ : ∃ k : ℕ, e = -(k : Int) := ⟨(-e).toNat, by omega⟩
    subst hk
    rw [truncDec, decValue]
    rw [if_neg (by omega)]
    have htn : (-(-(k : Int))).toNat = k := by omega
    rw [htn]
    have hz : (10 : ℚ) ^ (-(k : Int)) = ((10 ^ k : ℕ) : ℚ)⁻¹ := by
      rw [zpow_neg, zpow_natCast]; push_cast; ring
    rw [hz]
    have : (m : ℚ) * ((10 ^ k : ℕ) : ℚ)⁻¹ = (m : ℚ) / ((10 ^ k : ℕ) : ℚ) := by ring
    rw [this, Nat.floor_div_nat, Nat.floor_natCast]

/-- C3: `read_uptime` parses the first whitespace token of its source as a
float and truncates it (floor, not rounding) to an unsigned integer; in
particular `"12345.67 6789.01"` yields `12345`, and a read failure, a missing
token or an unparsable token each yield `0`. -/
theorem c3_uptime_truncates :
    (∀ (e : Env) (c tok : String) (rest : List String) (m : Nat) (ex : Int),
        e.uptime = some c → splitWhitespace c = tok :: rest →
        parseF64 tok = some (.finite false m ex) → truncDec m ex < 2 ^ 64 →
        read_uptime e = truncDec m ex ∧ read_uptime e = ⌊decValue m ex⌋₊) ∧
    (∀ e : Env, e.uptime = some "12345.67 6789.01" → read_uptime e = 12345) ∧
    (∀ e : Env, e.uptime = none → read_uptime e = 0) ∧
    (∀ (e : Env) (c : String), e.uptime = some c → splitWhitespace c = [] →
        read_uptime e = 0) ∧
    (∀ (e : Env) (c tok : String) (rest : List String), e.uptime = some c →
        splitWhitespace c = tok :: rest → parseF64 tok = none → read_uptime e = 0) := by
  refine ⟨?_, ?_, ?_, ?_, ?_⟩
  · intro e c tok rest m ex h1 h2 h3 h4
    have hval : read_uptime e = truncDec m ex := by
      rw [read_uptime, h1]
      show uptimeOfContent c = _
      rw [uptimeOfContent, h2]
      simp only [h3, castF64ToU64]
      rw [if_neg (by simp)]
      omega
    exact ⟨hval, hval.trans (truncDec_eq_floor m ex)⟩
  · intro e h; rw [read_uptime, h]; decide
  · intro e h; rw [read_uptime, h]; decide
  · intro e c h1 h2
    rw [read_uptime, h1]
    show uptimeOfContent c = _
    rw [uptimeOfContent, h2]
  · intro e c tok rest h1 h2 h3
    rw [read_uptime, h1]
    show uptimeOfContent c = _
    rw [uptimeOfContent, h2]
    simp [h3]

/-- Witness for C3: the general truncation clause applied at
`"12345.67 6789.01"`, and the failure clauses at concrete environments. -/
theorem c3_uptime_truncates_witness :
    read_uptime { uptime := some "12345.67 6789.01", meminfo := none, loadavg := none,
                  hostname := none } = 12345 ∧
    read_uptime { uptime := none, meminfo := none, loadavg := none, hostname := none } = 0 ∧
    read_uptime { uptime := some " ", meminfo := none, loadavg := none, hostname := none } = 0 ∧
    read_uptime { uptime := some "abc 9", meminfo := none, loadavg := none,
                  hostname := none } = 0 := by
  refine ⟨?_, c3_uptime_truncates.2.2.1 _ rfl,
          c3_uptime_truncates.2.2.2.1 _ " " rfl (by decide),
          c3_uptime_truncates.2.2.2.2 _ "abc 9" "abc" ["9"] rfl (by decide) (by decide)⟩
  have h := (c3_uptime_truncates.1
    { uptime := some "12345.67 6789.01", meminfo := none, loadavg := none, hostname := none }
    "12345.67 6789.01" "12345.67" ["6789.01"] 1234567 (-2)
    rfl (by decide) (by decide) (by decide)).1
  rw [h]; decide

/-- C5: `read_loadavg` returns the first whitespace-delimited token of its
source verbatim; it returns the literal `"0.00"` when the read fails or the
content holds no token; in particular `"0.52 0.41 0.33 2/456 7890"` yields
the string `"0.52"`. -/
theorem c5_loadavg_verbatim :
    (∀ (e : Env) (c tok : String) (rest : List String),
        e.loadavg = some c → splitWhitespace c = tok :: rest → read_loadavg e = tok) ∧
    (∀ e : Env, e.loadavg = none → read_loadavg e = "0.00") ∧
    (∀ (e : Env) (c : String), e.loadavg = some c → splitWhitespace c = [] →
        read_loadavg e = "0.00") ∧
    (∀ e : Env, e.loadavg = some "0.52 0.41 0.33 2/456 7890" → read_loadavg e = "0.52") := by
  refine ⟨?_, ?_, ?_, ?_⟩
  · intro e c tok rest h1 h2
    rw [read_loadavg, h1]
    simp [loadavgOfContent, h2]
  · intro e h; rw [read_loadavg, h]; decide
  · intro e c h1 h2
    rw [read_loadavg, h1]
    simp [loadavgOfContent, h2]
  · intro e h; rw [read_loadavg, h]; decide

/-- Witness for C5 at concrete environments. -/
theorem c5_loadavg_verbatim_witness :
    read_loadavg { uptime := none, meminfo := none,
                   loadavg := some "0.52 0.41 0.33 2/456 7890", hostname := none } = "0.52" ∧
    read_loadavg { uptime := none, meminfo := none, loadavg := none, hostname := none }
      = "0.00" ∧
    read_loadavg { uptime := none, meminfo := none, loadavg := some " ", hostname := none }
      = "0.00" :=
  ⟨c5_loadavg_verbatim.1 _ "0.52 0.41 0.33 2/456 7890" "0.52" ["0.41", "0.33", "2/456", "7890"]
      rfl (by decide),
   c5_loadavg_verbatim.2.1 _ rfl,
   c5_loadavg_verbatim.2.2.1 _ " " rfl (by decide)⟩

/-- C7 (noninterference): two single-cycle runs whose environments differ
only in one backing source produce identical values in every field not backed
by that source — perturbing the uptime, meminfo, loadavg or hostname source
leaves all the other fields of the emitted record unchanged. -/
theorem c7_field_noninterference (e : Env) (v : Option String) :
    ((oneCycle { e with uptime := v }).hostname = (oneCycle e).hostname ∧
     (oneCycle { e with uptime := v }).mem_total_kb = (oneCycle e).mem_total_kb ∧
     (oneCycle { e with uptime := v }).mem_free_kb = (oneCycle e).mem_free_kb ∧
     (oneCycle { e with uptime := v }).load_1m = (oneCycle e).load_1m) ∧
    ((oneCycle { e with meminfo := v }).hostname = (oneCycle e).hostname ∧
     (oneCycle { e with meminfo := v }).uptime = (oneCycle e).uptime ∧
     (oneCycle { e with meminfo := v }).load_1m = (oneCycle e).load_1m) ∧
    ((oneCycle { e with loadavg := v }).hostname = (oneCycle e).hostname ∧
     (oneCycle { e with loadavg := v }).uptime = (oneCycle e).uptime ∧
     (oneCycle { e with loadavg := v }).mem_total_kb = (oneCycle e).mem_total_kb ∧
     (oneCycle { e with loadavg := v }).mem_free_kb = (oneCycle e).mem_free_kb) ∧
    ((oneCycle { e with hostname := v }).uptime = (oneCycle e).uptime ∧
     (oneCycle { e with hostname := v }).mem_total_kb = (oneCycle e).mem_total_kb ∧
     (oneCycle { e with hostname := v }).mem_free_kb = (oneCycle e).mem_free_kb ∧
     (oneCycle { e with hostname := v }).load_1m = (oneCycle e).load_1m) := by
  cases e
  exact ⟨⟨rfl, rfl, rfl, rfl⟩, ⟨rfl, rfl, rfl⟩, ⟨rfl, rfl, rfl, rfl⟩, ⟨rfl, rfl, rfl, rfl⟩⟩

/-- The `f64`-to-`u64` cast always lands strictly below `2^64`. -/
theorem castF64ToU64_lt (f : RustFloat) : castF64ToU64 f < 2 ^ 64 := by
  rcases f with _ | neg | ⟨neg, m, e⟩
  · decide
  · rcases neg <;> decide
  · rw [castF64ToU64]
    split
    · decide
    · have := Nat.min_le_right (truncDec m e) (2 ^ 64 - 1)
      omega

/-- C10: `read_uptime` is total and always representable in an unsigned
64-bit integer: a negative finite value or NaN casts to `0`, a value at or
above `2^64` (and `inf`) saturates to `2^64 - 1`, and no input produces a
result of `2^64` or more. -/
theorem c10_uptime_saturating_total :
    (∀ e : Env, read_uptime e < 2 ^ 64) ∧
    (∀ (m : Nat) (ex : Int), m ≠ 0 → castF64ToU64 (.finite true m ex) = 0) ∧
    castF64ToU64 .nan = 0 ∧
    (∀ (m : Nat) (ex : Int), 2 ^ 64 ≤ truncDec m ex →
        castF64ToU64 (.finite false m ex) = 2 ^ 64 - 1) ∧
    (∀ e : Env, e.uptime = some "-12.5 0.0" → read_uptime e = 0) ∧
    (∀ e : Env, e.uptime = some "nan" → read_uptime e = 0) ∧
    (∀ e : Env, e.uptime = some "1e30 2" → read_uptime e = 2 ^ 64 - 1) := by
  refine ⟨?_, ?_, by decide, ?_, ?_, ?_, ?_⟩
  · intro e
    rw [read_uptime, uptimeOfContent]
    split
    · decide
    · split
      · exact castF64ToU64_lt _
      · decide
  · intro m ex hm
    rw [castF64ToU64, if_pos (by simp [hm])]
  · intro m ex h
    rw [castF64ToU64, if_neg (by simp)]
    omega
  · intro e h; rw [read_uptime, h]; decide
  · intro e h; rw [read_uptime, h]; decide
  · intro e h; rw [read_uptime, h]; decide

/-- Witness for C10 at concrete inputs: the bound at one environment, the
negative, NaN and saturating cast clauses at concrete values, and the three
concrete uptime contents. -/
theorem c10_uptime_saturating_total_witness :
    read_uptime { uptime := some "3.9 1", meminfo := none, loadavg := none,
                  hostname := none } < 2 ^ 64 ∧
    castF64ToU64 (.finite true 125 (-1)) = 0 ∧
    castF64ToU64 (.finite false 1 30) = 2 ^ 64 - 1 ∧
    read_uptime { uptime := some "-12.5 0.0", meminfo := none, loadavg := none,
                  hostname := none } = 0 ∧
    read_uptime { uptime := some "nan", meminfo := none, loadavg := none,
                  hostname := none } = 0 ∧
    read_uptime { uptime := some "1e30 2", meminfo := none, loadavg := none,
                  hostname := none } = 2 ^ 64 - 1 :=
  ⟨c10_uptime_saturating_total.1 _,
   c10_uptime_saturating_total.2.1 125 (-1) (by decide),
   c10_uptime_saturating_total.2.2.2.1 1 30 (by decide),
   c10_uptime_saturating_total.2.2.2.2.1 _ rfl,
   c10_uptime_saturating_total.2.2.2.2.2.1 _ rfl,
   c10_uptime_saturating_total.2.2.2.2.2.2 _ rfl⟩

/-- C4: for every key and every content, `read_meminfo` returns what the
specification's first-matching-line scan returns; an unreadable source
yields `0` for every key; and concretely a source containing the line
`"MemTotal:       16384000 kB"` yields `16384000` for key `"MemTotal:"`
while a key matching no line yields `0`. -/
theorem c4_meminfo_first_match :
    (∀ key content : String,
        meminfoOfContent key content = meminfoSpec key (rustLines content)) ∧
    (∀ e : Env, e.meminfo = none → ∀ key, read_meminfo e key = 0) ∧
    read_meminfo memSampleEnv "MemTotal:" = 16384000 ∧
    read_meminfo memSampleEnv "NoSuchKey:" = 0 := by
  refine ⟨?_, ?_, by decide, by decide⟩
  · intro key content
    rw [meminfoOfContent]
    induction rustLines content with
    | nil => rfl
    | cons l ls ih =>
      rw [find?_cons_eval, meminfoSpec]
      by_cases h : rustStartsWith l key
      · rw [if_pos h, if_pos h]
      · rw [if_neg h, if_neg h, ← ih]
  · intro e h key
    rw [read_meminfo, h]
    exact meminfoOfContent_empty key

/-- Witness for C4: the unreadable-source clause applied at a concrete
environment and key. -/
theorem c4_meminfo_first_match_witness :
    read_meminfo { uptime := none, meminfo := none, loadavg := none, hostname := none }
      "MemTotal:" = 0 :=
  c4_meminfo_first_match.2.1 _ rfl "MemTotal:"

/-- The first character surviving `dropWhile p` does not satisfy `p`. -/
theorem dropWhile_head?_not (p : Char → Bool) :
    ∀ (l : List Char) (c : Char), (l.dropWhile p).head? = some c → p c = false := by
  intro l
  induction l with
  | nil => intro c h; simp [List.dropWhile] at h
  | cons a t ih =>
    intro c h
    rw [List.dropWhile_cons] at h
    by_cases hp : p a
    · rw [if_pos hp] at h
      exact ih c h
    · rw [if_neg hp] at h
      simp only [List.head?_cons, Option.some.injEq] at h
      subst h
      simpa using hp

/-- Trimming decomposes a character list into whitespace, the trimmed core,
and whitespace. -/
theorem trim_decomposition (l : List Char) :
    ∃ a b : List Char,
      l = a ++ ((l.dropWhile Char.isWhitespace).reverse.dropWhile Char.isWhitespace).reverse
        ++ b ∧
      (∀ ch ∈ a, ch.isWhitespace = true) ∧ (∀ ch ∈ b, ch.isWhitespace = true) := by
  refine ⟨l.takeWhile Char.isWhitespace,
    ((l.dropWhile Char.isWhitespace).reverse.takeWhile Char.isWhitespace).reverse, ?_, ?_, ?_⟩
  · have h1 : l.takeWhile Char.isWhitespace ++ l.dropWhile Char.isWhitespace = l :=
      List.takeWhile_append_dropWhile Char.isWhitespace l
    have h2 : (l.dropWhile Char.isWhitespace).reverse.takeWhile Char.isWhitespace ++
        (l.dropWhile Char.isWhitespace).reverse.dropWhile Char.isWhitespace =
        (l.dropWhile Char.isWhitespace).reverse :=
      List.takeWhile_append_dropWhile Char.isWhitespace (l.dropWhile Char.isWhitespace).reverse
    have h3 := congrArg List.reverse h2
    rw [List.reverse_append, List.reverse_reverse] at h3
    rw [List.append_assoc, h3, h1]
  · intro ch hch
    simpa using List.mem_takeWhile_imp hch
  · intro ch hch
    rw [List.mem_reverse] at hch
    simpa using List.mem_takeWhile_imp hch

/-- The first character of a trimmed list is not whitespace. -/
theorem trim_head_not_ws (l : List Char) (ch : Char)
    (h : (((l.dropWhile Char.isWhitespace).reverse.dropWhile
        Char.isWhitespace).reverse).head? = some ch) :
    ch.isWhitespace = false := by
  apply dropWhile_head?_not Char.isWhitespace l ch
  have h2 : (l.dropWhile Char.isWhitespace).reverse.takeWhile Char.isWhitespace ++
      (l.dropWhile Char.isWhitespace).reverse.dropWhile Char.isWhitespace =
      (l.dropWhile Char.isWhitespace).reverse :=
    List.takeWhile_append_dropWhile Char.isWhitespace (l.dropWhile Char.isWhitespace).reverse
  have h3 := congrArg List.reverse h2
  rw [List.reverse_append, List.reverse_reverse] at h3
  rw [← h3]
  rcases hd : ((l.dropWhile Char.isWhitespace).reverse.dropWhile
      Char.isWhitespace).reverse with _ | ⟨x, xs⟩
  · rw [hd] at h
    simp at h
  · rw [hd] at h
    simp only [List.head?_cons, Option.some.injEq] at h
    subst h
    simp

/-- The last character of a trimmed list is not whitespace. -/
theorem trim_getLast_not_ws (l : List Char) (ch : Char)
    (h : (((l.dropWhile Char.isWhitespace).reverse.dropWhile
        Char.isWhitespace).reverse).getLast? = some ch) :
    ch.isWhitespace = false := by
  rw [List.getLast?_reverse] at h
  exact dropWhile_head?_not Char.isWhitespace (l.dropWhile Char.isWhitespace).reverse ch h

/-- C6: for a readable hostname source with content `s`, `read_hostname`
returns `s` with leading and trailing whitespace trimmed — the content splits
as whitespace, the returned value, whitespace, and the returned value starts
and ends with non-whitespace; content `"myhost\n"` yields `"myhost"`; a read
failure yields the literal `"unknown"`. -/
theorem c6_hostname_trimmed :
    (∀ (e : Env) (s : String), e.hostname = some s →
      ∃ a b : List Char,
        s.data = a ++ (read_hostname e).data ++ b ∧
        (∀ ch ∈ a, ch.isWhitespace = true) ∧
        (∀ ch ∈ b, ch.isWhitespace = true) ∧
        (∀ ch : Char, (read_hostname e).data.head? = some ch → ch.isWhitespace = false) ∧
        (∀ ch : Char, (read_hostname e).data.getLast? = some ch → ch.isWhitespace = false)) ∧
    (∀ e : Env, e.hostname = some "myhost\n" → read_hostname e = "myhost") ∧
    (∀ e : Env, e.hostname = none → read_hostname e = "unknown") := by
  refine ⟨?_, ?_, ?_⟩
  · intro e s h
    have hdata : (read_hostname e).data =
        ((s.data.dropWhile Char.isWhitespace).reverse.dropWhile Char.isWhitespace).reverse := by
      rw [read_hostname, h]
      rfl
    rw [hdata]
    obtain ⟨a, b, hab, ha, hb⟩ := trim_decomposition s.data
    exact ⟨a, b, hab, ha, hb, fun ch hch => trim_head_not_ws s.data ch hch,
      fun ch hch => trim_getLast_not_ws s.data ch hch⟩
  · intro e h; rw [read_hostname, h]; decide
  · intro e h; rw [read_hostname, h]; decide

/-- Witness for C6: the trim clauses applied at concrete environments. -/
theorem c6_hostname_trimmed_witness :
    read_hostname { uptime := none, meminfo := none, loadavg := none,
                    hostname := some "myhost\n" } = "myhost" ∧
    read_hostname { uptime := none, meminfo := none, loadavg := none,
                    hostname := none } = "unknown" ∧
    (∃ a b : List Char,
      ("  myhost \n" : String).data = a ++ (read_hostname trimEnv).data ++ b ∧
      (∀ ch ∈ a, ch.isWhitespace = true) ∧
      (∀ ch ∈ b, ch.isWhitespace = true) ∧
      (∀ ch : Char, (read_hostname trimEnv).data.head? = some ch → ch.isWhitespace = false) ∧
      (∀ ch : Char, (read_hostname trimEnv).data.getLast? = some ch →
        ch.isWhitespace = false)) :=
  ⟨c6_hostname_trimmed.2.1 _ rfl, c6_hostname_trimmed.2.2 _ rfl,
   c6_hostname_trimmed.1 trimEnv "  myhost \n" rfl⟩

/-- C9: the emitter interpolates the hostname string into the output line
verbatim, with no escaping: a resolvable hostname containing a double quote
yields a line with that quote unescaped, and that line is not of the
documented five-field quoted shape. -/
theorem c9_unescaped_quote :
    oneCycleLine quoteEnv =
      "\x7b\"hostname\":\"node\"1\",\"uptime\":100,\"mem_total_kb\":8000000,\"mem_free_kb\":0,\"load_1m\":\"1.00\"\x7d" ∧
    ¬ wellFormedLine (oneCycleLine quoteEnv) := by
  constructor
  · decide
  · rintro ⟨h, u, t, f, l, qh, ql, du, dt, df, heq⟩
    have hc := congrArg (fun s : String => s.data.count '"') heq
    simp only [String.data_append, List.count_append] at hc
    have h15 : (oneCycleLine quoteEnv).data.count '"' = 15 := by decide
    have e1 : ("\x7b\"hostname\":\"" : String).data.count '"' = 3 := by decide
    have e2 : ("\",\"uptime\":" : String).data.count '"' = 3 := by decide
    have e3 : (",\"mem_total_kb\":" : String).data.count '"' = 2 := by decide
    have e4 : (",\"mem_free_kb\":" : String).data.count '"' = 2 := by decide
    have e5 : (",\"load_1m\":\"" : String).data.count '"' = 3 := by decide
    have e6 : ("\"\x7d" : String).data.count '"' = 1 := by decide
    have hh0 : h.data.count '"' = 0 := List.count_eq_zero.mpr qh
    have hl0 : l.data.count '"' = 0 := List.count_eq_zero.mpr ql
    have hu0 : u.data.count '"' = 0 := by
      refine List.count_eq_zero.mpr fun hm => ?_
      have := du.2 _ hm
      simp at this
    have ht0 : t.data.count '"' = 0 := by
      refine List.count_eq_zero.mpr fun hm => ?_
      have := dt.2 _ hm
      simp at this
    have hf0 : f.data.count '"' = 0 := by
      refine List.count_eq_zero.mpr fun hm => ?_
      have := df.2 _ hm
      simp at this
    rw [h15, e1, e2, e3, e4, e5, e6, hh0, hl0, hu0, ht0, hf0] at hc
    omega

/-- C8: in a full process run the hostname is resolved once, from the startup
environment; every cycle's record carries exactly that value, whatever the
per-cycle environments do — in particular the hostname field is identical
across all records even when the hostname source's content changes between
cycles. -/
theorem c8_hostname_resolved_once (start : Env) (t1 t2 : Nat → Env) (n m : Nat) :
    (processRecord start t1 n).hostname = read_hostname start ∧
    (processRecord start t1 n).hostname = (processRecord start t2 m).hostname :=
  ⟨rfl, rfl⟩

end Sampler
